import Mathlib

/-!
Verification of the marker-driven spreadsheet extraction engine of the
activity-rule-editor repository (the Excel parsing service under
`backend/services`; line numbers cited below refer to that module).

The Python source is shallowly embedded: worksheets become explicit grids of
cell data, every loop becomes a fuel-indexed structural recursion (the fuel
supplied at each call site strictly dominates the loop bound, so the embedded
function agrees with the Python loop), and all text manipulation is done by
total functions over `List Char` so that every definition evaluates inside the
kernel.  Python floats are modelled as exact rational numbers.
-/

namespace ActivityRules

/-! ## Character-list text primitives (models of the Python `str` operations) -/

/-- Characters stripped by Python `str.strip()` with no argument. -/
def pyWhitespace : List Char :=
  [' ', '\t', '\n', '\r', Char.ofNat 11, Char.ofNat 12]

/-- Model of Python `str.strip()`: drop surrounding whitespace. -/
def trimChars (l : List Char) : List Char :=
  ((l.dropWhile (fun c => pyWhitespace.contains c)).reverse.dropWhile
    (fun c => pyWhitespace.contains c)).reverse

/-- Model of Python `str.strip()` packaged on `String`. -/
def pyStrip (s : String) : String := String.mk (trimChars s.data)

/-- Model of Python `str.startswith`. -/
def startsW (s pre : String) : Bool := pre.data.isPrefixOf s.data

/-- Model of Python `str.endswith`. -/
def endsW (s suf : String) : Bool := suf.data.reverse.isPrefixOf s.data.reverse

/-- Model of Python slicing `s[n:]`. -/
def strDrop (s : String) (n : Nat) : String := String.mk (s.data.drop n)

/-- Model of Python slicing `s[:-n]` (drop `n` characters from the right). -/
def strDropRight (s : String) (n : Nat) : String :=
  String.mk (s.data.take (s.data.length - n))

/-- Model of the Python substring test `needle in haystack`. -/
def hasSubList (pat : List Char) : List Char → Bool
  | [] => pat.isEmpty
  | c :: rest => pat.isPrefixOf (c :: rest) || hasSubList pat rest

/-- Model of the Python substring test `needle in haystack` on `String`. -/
def pyIn (needle haystack : String) : Bool := hasSubList needle.data haystack.data

/-- Model of Python `str.lower()` (ASCII letters; all marker text is ASCII). -/
def myToLower (s : String) : String := String.mk (s.data.map Char.toLower)

/-- Model of Python `str.upper()` (ASCII letters; all marker text is ASCII). -/
def myToUpper (s : String) : String := String.mk (s.data.map Char.toUpper)

/-- Truthiness of a Python string (`if s:`). -/
def strTruthy (s : String) : Bool := !s.data.isEmpty

/-- One-pass model of `s.replace("\r\n", "\n").replace("\r", "\n")`:
every CRLF pair and every stray CR becomes a single LF. -/
def normNewlines : List Char → List Char
  | [] => []
  | '\r' :: '\n' :: rest => '\n' :: normNewlines rest
  | '\r' :: rest => '\n' :: normNewlines rest
  | c :: rest => c :: normNewlines rest

/-- Model of Python `s.split(sep)[-1]`: the text after the last
(left-to-right, non-overlapping) occurrence of `sep`; `s` itself when
`sep` does not occur.  `fuel` dominates the length of the scanned list. -/
def splitLastAux (pat : List Char) : Nat → List Char → List Char → List Char
  | 0, _, best => best
  | fuel + 1, l, best =>
    match l with
    | [] => best
    | c :: rest =>
      if pat.isPrefixOf (c :: rest) && !pat.isEmpty then
        splitLastAux pat fuel ((c :: rest).drop pat.length) ((c :: rest).drop pat.length)
      else
        splitLastAux pat fuel rest best

/-- Model of Python `s.split(sep)[-1]` on `String`. -/
def splitLast (s sep : String) : String :=
  String.mk (splitLastAux sep.data (s.data.length + 1) s.data s.data)

/-- Marker suffix extraction `s.split(marker)[-1].strip()` used all over the
source for `REGION-` / `TITLE-` / `RULES-` / `RANK-` / `RINK-` suffixes. -/
def markerSuffix (marker s : String) : String := pyStrip (splitLast s marker)

/-- The apostrophe character, used by the `='...'` formula-wrapper check. -/
def aposChar : Char := Char.ofNat 39

/-! ## Decimal rendering of rationals: model of the f-string `f"{x:.10g}"` -/

/-- Fuel-indexed base-10 logarithm on naturals (`natLog10 n = 0` for `n < 10`). -/
def natLog10Aux : Nat → Nat → Nat
  | 0, _ => 0
  | fuel + 1, n => if n < 10 then 0 else natLog10Aux fuel (n / 10) + 1

/-- Base-10 logarithm on naturals, total and kernel-reducible. -/
def natLog10 (n : Nat) : Nat := natLog10Aux n n

/-- Decides `n / d < 10 ^ e` for a fraction of naturals and an integer
exponent, by cross-multiplication (so only kernel-accelerated `Nat`
arithmetic is involved). -/
def qLtPow10 (n d : Nat) : Int → Bool
  | Int.ofNat k => n < d * 10 ^ k
  | Int.negSucc k => n * 10 ^ (k + 1) < d

/-- Decimal exponent of the positive fraction `n / d`: the `e` with
`10^e ≤ n/d < 10^(e+1)`. -/
def qExp10nd (n d : Nat) : Int :=
  let g : Int := (natLog10 n : Int) - (natLog10 d : Int)
  if qLtPow10 n d g then g - 1 else if qLtPow10 n d (g + 1) then g else g + 1

/-- Scale the fraction `n / d` by `10 ^ k`, keeping it a fraction of naturals. -/
def scaledFrac (n d : Nat) : Int → Nat × Nat
  | Int.ofNat a => (n * 10 ^ a, d)
  | Int.negSucc a => (n, d * 10 ^ (a + 1))

/-- Round the nonnegative fraction `n / d` to the nearest natural, ties to
even (the rounding used by C/Python float formatting). -/
def roundHalfEvenFrac (n d : Nat) : Nat :=
  let f := n / d
  let r := n % d
  if 2 * r < d then f
  else if d < 2 * r then f + 1
  else if f % 2 = 0 then f else f + 1

/-- Decimal digit characters of a natural number, kernel-reducible. -/
def natDigitsAux : Nat → Nat → List Char → List Char
  | 0, _, acc => acc
  | fuel + 1, n, acc =>
    let d := Char.ofNat (48 + n % 10)
    if n < 10 then d :: acc else natDigitsAux fuel (n / 10) (d :: acc)

/-- Decimal string of a natural number. -/
def natToDec (n : Nat) : String := String.mk (natDigitsAux (n + 1) n [])

/-- Strip trailing `'0'` characters (the `'g'` format removes trailing zeros). -/
def stripZeros (s : String) : String :=
  String.mk ((s.data.reverse.dropWhile (fun ch => ch = '0')).reverse)

/-- General ("g") formatting of a positive rational with 10 significant digits:
the body of Python `f"{x:.10g}"` for positive `x`.  All arithmetic is done on
the numerator/denominator pair so that the definition evaluates in the kernel. -/
def formatG10Pos (q : ℚ) : String :=
  let n := q.num.natAbs
  let d := q.den
  let e0 := qExp10nd n d
  let sf := scaledFrac n d (9 - e0)
  let m0 := roundHalfEvenFrac sf.1 sf.2
  let me : Nat × Int := if m0 = 10 ^ 10 then ((10 : Nat) ^ 9, e0 + 1) else (m0, e0)
  let ds := natToDec me.1
  let e := me.2
  if -4 ≤ e ∧ e < 10 then
    if 0 ≤ e then
      let k := e.toNat + 1
      let ip := String.mk (ds.data.take k)
      let fp := stripZeros (String.mk (ds.data.drop k))
      if fp = "" then ip else ip ++ "." ++ fp
    else
      let zeros := String.mk (List.replicate ((-e).toNat - 1) '0')
      "0." ++ zeros ++ stripZeros ds
  else
    let rest := stripZeros (String.mk (ds.data.drop 1))
    let mant := if rest = "" then String.mk (ds.data.take 1)
                else String.mk (ds.data.take 1) ++ "." ++ rest
    let esign := if e < 0 then "-" else "+"
    let eabs := e.natAbs
    let edig := if eabs < 10 then "0" ++ natToDec eabs else natToDec eabs
    mant ++ "e" ++ esign ++ edig

/-- Model of the Python f-string `f"{x:.10g}"` over exact rationals. -/
def formatG10 (q : ℚ) : String :=
  if q = 0 then "0"
  else if q < 0 then "-" ++ formatG10Pos (-q)
  else formatG10Pos q

/-! ## Data model: cells, merge ranges, worksheets -/

/-- A cell value as stored by the spreadsheet library: text or a number.
Python floats are modelled as exact rationals. -/
inductive CellVal where
  | vStr (s : String)
  | vNum (q : ℚ)
  deriving DecidableEq

/-- Raw cell state as exposed by openpyxl: value, number-format string and the
style attributes the parser reads (horizontal alignment, bold, italic and the
font color's RGB/ARGB hex string when one is present). -/
structure CellData where
  value : Option CellVal
  numberFormat : String
  horizontal : Option String
  bold : Bool
  italic : Bool
  fontColorRgb : Option String
  deriving DecidableEq

/-- A merge rectangle `(min_row, min_col, max_row, max_col)`. -/
structure MergeRange where
  minRow : Nat
  minCol : Nat
  maxRow : Nat
  maxCol : Nat
  deriving DecidableEq

/-- A loaded worksheet: dimensions, cell contents and the merge-range table. -/
structure Worksheet where
  maxRow : Nat
  maxCol : Nat
  cells : Nat → Nat → CellData
  merges : List MergeRange

/-- Membership of a coordinate in a merge rectangle. -/
def mergeContains (mr : MergeRange) (r c : Nat) : Bool :=
  decide (mr.minRow ≤ r) && decide (r ≤ mr.maxRow) &&
  decide (mr.minCol ≤ c) && decide (c ≤ mr.maxCol)

/-- Model of `build_merge_index` followed by lookup: the Python code inserts
every covered coordinate of every range into a dict in list order, so a
coordinate covered by several ranges maps to the **last** range containing
it.  `mergeAt` returns exactly that entry. -/
def mergeAt (ms : List MergeRange) (r c : Nat) : Option MergeRange :=
  ms.foldl (fun acc mr => if mergeContains mr r c then some mr else acc) none

/-- Truthiness of a Python cell value (`if cell_value:`). -/
def cellTruthy : Option CellVal → Bool
  | none => false
  | some (CellVal.vStr s) => strTruthy s
  | some (CellVal.vNum q) => decide (q ≠ 0)

/-- Model of Python `str(v)` on a cell value.  `str()` of a float is
approximated by the `%.10g` rendering; every property proved in this file
depends on it only for string cells (a numeric rendering never starts with a
marker prefix and is never compared against marker text). -/
def pyStrOfVal : CellVal → String
  | CellVal.vStr s => s
  | CellVal.vNum q => formatG10 q

/-- Model of Python `str(v)` on an optional cell value (`str(None) = "None"`;
all uses in the source are guarded by a truthiness check). -/
def pyStrOfOpt : Option CellVal → String
  | none => "None"
  | some v => pyStrOfVal v

/-- Model of `clean_text`: trim, strip the `="…"` / `='…'` formula wrappers
and a leading `=`, normalize line breaks, trim again. -/
def clean_text (v : Option CellVal) : String :=
  match v with
  | none => ""
  | some cv =>
    let s := pyStrip (pyStrOfVal cv)
    let s := if startsW s "=\"" && endsW s "\"" then strDropRight (strDrop s 2) 1 else s
    let s := if startsW s (String.mk ['=', aposChar]) && endsW s (String.mk [aposChar])
             then strDropRight (strDrop s 2) 1 else s
    let s := if startsW s "=" then strDrop s 1 else s
    pyStrip (String.mk (normNewlines s.data))

/-- Effective cell info after merge resolution: lines 48–101 of the source. -/
structure CellInfo where
  value : Option CellVal
  alignment : Option String
  bold : Bool
  italic : Bool
  color : Option String
  center : Bool
  deriving DecidableEq

/-- Percentage rendering of numeric values inside `get_cell_info`
(lines 59–62): a numeric value whose number format contains `%` is replaced
by the text `f"{value * 100:.10g}%"`.  The float product is modelled as the
exact rational product, written via `mkRat` on the components so that the
definition evaluates in the kernel. -/
def resolveValue (cd : CellData) : Option CellVal :=
  match cd.value with
  | some (CellVal.vNum q) =>
    if strTruthy cd.numberFormat && pyIn "%" cd.numberFormat then
      some (CellVal.vStr (formatG10 (mkRat (q.num * 100) q.den) ++ "%"))
    else some (CellVal.vNum q)
  | v => v

/-- Font-color extraction (lines 79–91): an 8-character ARGB string drops the
alpha, a 6-character RGB string is used as-is, anything else yields no color. -/
def resolveColor : Option String → Option String
  | none => none
  | some rgb =>
    let rgb := pyStrip rgb
    if rgb.data.length = 8 then some ("#" ++ strDrop rgb 2)
    else if rgb.data.length = 6 then some ("#" ++ rgb)
    else none

/-- Model of `get_cell_info`: resolve the coordinate to its merge-range
origin, then read value (with percentage rendering), alignment, font flags
and color from that cell. -/
def get_cell_info (ws : Worksheet) (r c : Nat) : CellInfo :=
  let p : Nat × Nat :=
    match mergeAt ws.merges r c with
    | some mr => (mr.minRow, mr.minCol)
    | none => (r, c)
  let cd := ws.cells p.1 p.2
  ⟨resolveValue cd, cd.horizontal, cd.bold, cd.italic,
   resolveColor cd.fontColorRgb, cd.horizontal == some "center"⟩

/-- Model of `get_value`: the value component of `get_cell_info`. -/
def get_value (ws : Worksheet) (r c : Nat) : Option CellVal :=
  (get_cell_info ws r c).value

/-- Model of `row_region_values`: cleaned text of columns `c1..c2` of row `r`. -/
def row_region_values (ws : Worksheet) (r c1 c2 : Nat) : List String :=
  (List.range (c2 + 1 - c1)).map fun i => clean_text (get_value ws r (c1 + i))

/-- Model of `is_row_blank`. -/
def is_row_blank (vals : List String) : Bool := vals.all (fun v => v = "")

/-- The cell-info list of columns `c1..c2` of row `r` (the `cells_info`
local of `collect_rules_content` and of the fallback branch). -/
def rowCellsInfo (ws : Worksheet) (c1 c2 r : Nat) : List CellInfo :=
  (List.range (c2 + 1 - c1)).map fun i => get_cell_info ws r (c1 + i)

/-! ## Marker scanning: regions and titles -/

/-- The fixed RTL token set of the source (line 10), as a list. -/
def RTL_REGIONS : List String :=
  ["MECA", "ARAB", "ARABIC", "SA", "UAE", "EG", "IL", "ISRAEL", "JO", "LB", "IQ", "SY"]

/-- Model of `is_rtl_region`: empty code is not RTL; otherwise any RTL token
occurring as a substring of the upper-cased code makes it RTL. -/
def is_rtl_region (code : String) : Bool :=
  strTruthy code && RTL_REGIONS.any (fun t => pyIn t (myToUpper code))

/-- A `REGION-` marker occurrence: code and the column band it spans. -/
structure Region where
  code : String
  row : Nat
  colStart : Nat
  colEnd : Nat
  deriving DecidableEq

/-- Raw scan of `find_regions` (lines 131–141): every cell, in row-major
order, whose cleaned text starts with `REGION-`, widened to its merge span. -/
def findRegionsRaw (ws : Worksheet) : List Region :=
  (List.range' 1 ws.maxRow).flatMap fun r =>
    (List.range' 1 ws.maxCol).filterMap fun c =>
      let v := clean_text (get_value ws r c)
      if startsW v "REGION-" then
        some (match mergeAt ws.merges r c with
          | some mr => ⟨markerSuffix "REGION-" v, mr.minRow, mr.minCol, mr.maxCol⟩
          | none => ⟨markerSuffix "REGION-" v, r, c, c⟩)
      else none

/-- Order-preserving deduplication of regions by their full tuple
(lines 143–149). -/
def dedupRegions : List Region → List Region → List Region
  | [], _ => []
  | rg :: rest, seen =>
    if seen.contains rg then dedupRegions rest seen
    else rg :: dedupRegions rest (rg :: seen)

/-- The stable sort key of line 150: ascending column start, then row. -/
def regionLe (a b : Region) : Bool :=
  decide (a.colStart < b.colStart) ||
  (decide (a.colStart = b.colStart) && decide (a.row ≤ b.row))

/-- Stable insertion into a sorted list: an element is placed before the
first strictly-later element, after every earlier-or-equal one. -/
def insertStable (x : Region) : List Region → List Region
  | [] => [x]
  | y :: ys => if regionLe x y then x :: y :: ys else y :: insertStable x ys

/-- Stable insertion sort by `regionLe`.  Python's `list.sort` is a stable
sort under the same total preorder, and stable sorts of a list under a total
preorder coincide, so this models line 150 exactly. -/
def sortRegions : List Region → List Region
  | [] => []
  | x :: xs => insertStable x (sortRegions xs)

/-- Model of `find_regions`: scan, deduplicate, sort by (col_start, row). -/
def find_regions (ws : Worksheet) : List Region :=
  sortRegions (dedupRegions (findRegionsRaw ws) [])

/-- A `TITLE-` marker: its type suffix, the adjacent title text, its row. -/
structure TitleMarker where
  ttype : String
  text : String
  row : Nat
  deriving DecidableEq

/-- First `TITLE-` cell of one row of a region's column band (the inner loop
of `scan_titles`, which breaks at the first match). -/
def scanTitleRow (rv : List String) (r : Nat) : Option TitleMarker :=
  match rv.findIdx? (fun v => startsW v "TITLE-") with
  | some i => some ⟨markerSuffix "TITLE-" (rv.getD i ""), rv.getD (i + 1) "", r⟩
  | none => none

/-- Model of `scan_titles`: scan the rows below the region marker. -/
def scan_titles (ws : Worksheet) (rg : Region) : List TitleMarker :=
  (List.range' (rg.row + 1) (ws.maxRow + 1 - (rg.row + 1))).filterMap fun r =>
    scanTitleRow (row_region_values ws r rg.colStart rg.colEnd) r

/-- Model of `has_region_marker` (lines 686–695).  Note: unlike
`find_regions`, it reads the **raw** cell value of the first row —
`str(value).strip()` — with no `clean_text` formula-wrapper stripping. -/
def has_region_marker (ws : Worksheet) : Bool :=
  if ws.maxRow < 1 then false
  else (List.range ws.maxCol).any fun i =>
    let v := (ws.cells 1 (i + 1)).value
    cellTruthy v && startsW (pyStrip (pyStrOfOpt v)) "REGION-"

/-! ## Output shapes -/

/-- A styled text run (style keys are omitted in the source dict when
false/absent; here they are explicit fields with those defaults). -/
structure Run where
  text : String
  bold : Bool
  italic : Bool
  color : Option String
  deriving DecidableEq

/-- A paragraph: alignment plus runs. -/
structure Paragraph where
  align : String
  runs : List Run
  deriving DecidableEq

/-- The blank-line paragraph `{"align": "left", "runs": [{"text": ""}]}`. -/
def blankParagraph : Paragraph := ⟨"left", [⟨"", false, false, none⟩]⟩

/-- A reward entry (lines 206–213).  `srcRow` is the `_row` metadata field,
`imgCol` is `_img_col`, `expected` is `_expected`. -/
structure RewardItem where
  name : String
  image : String
  desc : String
  srcRow : Nat
  imgCol : Nat
  expected : String
  deriving DecidableEq

/-- A table cell (lines 324–334).  `srcRow`/`srcCol` are the `_row`/`_col`
metadata fields and `expected` is `_expected`. -/
structure TableCell where
  value : String
  isImage : Bool
  rowspan : Nat
  colspan : Nat
  bold : Bool
  center : Bool
  srcRow : Nat
  srcCol : Nat
  expected : Option String
  deriving DecidableEq

/-- Table payload: the list of data rows. -/
structure TableData where
  rows : List (List TableCell)
  deriving DecidableEq

/-- A section of a block: the tagged union of rules sections
(`paragraphs`), reward sections (`rewards`) and table sections (`table`). -/
structure Section where
  title : String
  paragraphs : List Paragraph
  rewards : List RewardItem
  table : Option TableData
  deriving DecidableEq

/-! ## RulesContentCollector (`collect_rules_content`, lines 361–468) -/

/-- Stop markers checked in the collectors' marker column:
`TITLE-` / `RINK-` / `RANK-` (lines 387, 259, 280, 401). -/
def isBlockMarker (s : String) : Bool :=
  startsW s "TITLE-" || startsW s "RINK-" || startsW s "RANK-"

/-- The paragraph-alignment update of one cell (lines 431–438): an explicit
`center`, `right` or `left` horizontal alignment overwrites the current
value; `None` or any other alignment leaves it unchanged. -/
def alignStep (a : String) (ci : CellInfo) : String :=
  match ci.alignment with
  | some al =>
    if al = "center" then "center"
    else if al = "right" then "right"
    else if al = "left" then "left"
    else a
  | none => a

/-- The run-building loop over the non-marker cells of one row
(lines 411–440): distinct non-empty cleaned values become runs in order;
every contributing cell updates the paragraph alignment via `alignStep`. -/
def buildRuns : List CellInfo → List String → String → String × List Run
  | [], _, a => (a, [])
  | ci :: rest, seenRow, a =>
    let val := clean_text ci.value
    if val = "" || seenRow.contains val then buildRuns rest seenRow a
    else
      let res := buildRuns rest (val :: seenRow) (alignStep a ci)
      (res.1, ⟨val, ci.bold, ci.italic, ci.color⟩ :: res.2)

/-- Alignment and runs of row `rr` (marker column excluded, default left). -/
def rowRuns (ws : Worksheet) (c1 c2 rr : Nat) : String × List Run :=
  buildRuns ((rowCellsInfo ws c1 c2 rr).drop 1) [] "left"

/-- The row-level dedup key: `'|'.join(run['text'] for run in runs)`. -/
def joinKey (runs : List Run) : String :=
  String.intercalate "|" (runs.map Run.text)

/-- The stop test of `collect_rules_content` (lines 384–405), evaluated for
row `rr`: never stops on the start row; otherwise stops on a
`TITLE-`/`RINK-`/`RANK-` marker column, a `TABLE-` token in a content
column, or a blank row whose successor (within range) is blank or a marker
row — a blank last row also stops. -/
def rulesStop (ws : Worksheet) (c1 c2 r0 rEnd rr : Nat) : Bool :=
  if rr > r0 then
    let rv := row_region_values ws rr c1 c2
    let first := rv.headD ""
    if isBlockMarker first then true
    else if (rv.drop 1).any (fun v => !(v = "") && startsW v "TABLE-") then true
    else if is_row_blank rv then
      if rr + 1 ≤ rEnd then
        let nextRv := row_region_values ws (rr + 1) c1 c2
        is_row_blank nextRv || isBlockMarker (nextRv.headD "")
      else true
    else false
  else false

/-- The row loop of `collect_rules_content`: `fuel` dominates
`rEnd + 1 - rr`, so the recursion is exactly the Python `while` loop.
Returns the collected paragraphs and the next unprocessed row. -/
def collectRulesAux (ws : Worksheet) (c1 c2 r0 rEnd : Nat) :
    Nat → Nat → List String → List Paragraph × Nat
  | 0, rr, _ => ([], rr)
  | fuel + 1, rr, seenLines =>
    if rr > rEnd then ([], rr)
    else if rulesStop ws c1 c2 r0 rEnd rr then ([], rr)
    else
      let ar := rowRuns ws c1 c2 rr
      if ar.2.isEmpty then
        let rest := collectRulesAux ws c1 c2 r0 rEnd fuel (rr + 1) seenLines
        (blankParagraph :: rest.1, rest.2)
      else
        let key := joinKey ar.2
        if seenLines.contains key then
          collectRulesAux ws c1 c2 r0 rEnd fuel (rr + 1) seenLines
        else
          let rest := collectRulesAux ws c1 c2 r0 rEnd fuel (rr + 1) (key :: seenLines)
          (⟨ar.1, ar.2⟩ :: rest.1, rest.2)

/-- Model of `collect_rules_content` over rows `[r0, rEnd]`. -/
def collect_rules_content (ws : Worksheet) (c1 c2 r0 rEnd : Nat) :
    List Paragraph × Nat :=
  collectRulesAux ws c1 c2 r0 rEnd (rEnd + 2 - r0) r0 []

/-! ## RewardCollector (`collect_rewards`, lines 182–216) -/

/-- Any of the five block-level markers (line 189). -/
def isAnyMarker5 (s : String) : Bool :=
  startsW s "TITLE-" || startsW s "RINK-" || startsW s "RANK-" ||
  startsW s "RULES-" || startsW s "TABLE-"

/-- The `if not name:` fallback scan of lines 198–204: assign the first
non-empty remaining value to the name and the next to the description when
it is still empty. -/
def scanNameDesc : List String → String → String → String × String
  | [], n, d => (n, d)
  | v :: rest, n, d =>
    if !(v = "") then
      if n = "" then scanNameDesc rest v d
      else if d = "" then scanNameDesc rest n v
      else scanNameDesc rest n d
    else scanNameDesc rest n d

/-- Name/image/description of one reward row (lines 195–204): the fixed
columns marker+1 / marker+2 / marker+3, with the fallback scan when the
name column is empty. -/
def rewardNameImgDesc (rv : List String) : String × String × String :=
  let name := rv.getD 1 ""
  let img := rv.getD 2 ""
  let desc := rv.getD 3 ""
  if name = "" then
    let nd := scanNameDesc (rv.drop 1) "" desc
    (nd.1, img, nd.2)
  else (name, img, desc)

/-- The row loop of `collect_rewards`.  Marker rows and blank rows stop the
loop except on its first row; each row with any of name/desc/image text
yields one item carrying the scanned row `rr` and image column `c1 + 2`. -/
def collectRewardsAux (ws : Worksheet) (c1 c2 r0 rEnd : Nat) :
    Nat → Nat → List RewardItem × Nat
  | 0, rr => ([], rr)
  | fuel + 1, rr =>
    if rr > rEnd then ([], rr)
    else
      let rv := row_region_values ws rr c1 c2
      let first := rv.headD ""
      if isAnyMarker5 first && !(rr = r0) then ([], rr)
      else if is_row_blank rv && !(rr = r0) then ([], rr)
      else
        let nid := rewardNameImgDesc rv
        let rest := collectRewardsAux ws c1 c2 r0 rEnd fuel (rr + 1)
        if !(nid.1 = "") || !(nid.2.2 = "") || !(nid.2.1 = "") then
          (⟨nid.1, nid.2.1, nid.2.2, rr, c1 + 2,
            if !(nid.2.1 = "") then nid.2.1 else nid.1⟩ :: rest.1, rest.2)
        else rest

/-- Model of `collect_rewards` over rows `[r0, rEnd]`: the reward items and
the next unprocessed row. -/
def collect_rewards (ws : Worksheet) (c1 c2 r0 rEnd : Nat) :
    List RewardItem × Nat :=
  collectRewardsAux ws c1 c2 r0 rEnd (rEnd + 2 - r0) r0

/-! ## TableCollector (`collect_table`, lines 218–359) -/

/-- Effective column span of a table (lines 232–251): the merge rectangle of
the first `TABLE-` cell of the marker row (skipping the rectangle's first
column when it coincides with the region's leading column), or the region's
width minus its leading column when the marker cell is unmerged. -/
def tableSpan (ws : Worksheet) (c1 c2 r0 : Nat) : Nat × Nat :=
  let rv := row_region_values ws r0 c1 c2
  match rv.findIdx? (fun v => startsW v "TABLE-") with
  | none => (c1, c2)
  | some colIdx =>
    let ac := c1 + colIdx
    match mergeAt ws.merges r0 ac with
    | some mr => (if mr.minCol = c1 then mr.minCol + 1 else mr.minCol, mr.maxCol)
    | none => (c1 + 1, c2)

/-- The image-file extensions recognized by the table collector (line 319). -/
def imageExts : List String := [".png", ".jpg", ".jpeg", ".gif", ".webp"]

/-- One emitted table cell at `(rr, ac)` with the given spans (lines
307–335). -/
def mkTableCell (ws : Worksheet) (rr ac rs cs : Nat) (val : String) : TableCell :=
  let ci := get_cell_info ws rr ac
  let lower := myToLower val
  let isImg := !(val = "") &&
    (imageExts.any (fun e => pyIn e lower) || startsW lower "image:")
  let imgId := if startsW lower "image:" then pyStrip (strDrop val 6) else val
  ⟨val, isImg, rs, cs, ci.bold, ci.center, rr, ac, if isImg then some imgId else none⟩

/-- The per-row cell loop of `collect_table` (lines 284–336): every in-span
column resolves its merge rectangle; only a rectangle's origin cell is
emitted, with the rectangle's row/col spans. -/
def tableRowCells (ws : Worksheet) (tc1 tc2 rr : Nat) : List TableCell :=
  (List.range (tc2 + 1 - tc1)).filterMap fun colIdx =>
    let ac := tc1 + colIdx
    let val := clean_text (get_value ws rr ac)
    match mergeAt ws.merges rr ac with
    | some mr =>
      if rr = mr.minRow ∧ ac = mr.minCol then
        some (mkTableCell ws rr ac (mr.maxRow + 1 - mr.minRow)
          (mr.maxCol + 1 - mr.minCol) val)
      else none
    | none => some (mkTableCell ws rr ac 1 1 val)

/-- The data-row loop of `collect_table` (lines 256–342): stops on a
`TITLE-`/`RINK-`/`RANK-` marker column, a `TABLE-` token in the span, or a
blank row followed by a blank-or-marker row; every processed row (blank rows
included) is appended. -/
def collectTableRowsAux (ws : Worksheet) (c1 tc1 tc2 rEnd : Nat) :
    Nat → Nat → List (List TableCell) × Nat
  | 0, rr => ([], rr)
  | fuel + 1, rr =>
    if rr > rEnd then ([], rr)
    else
      let markerColVal := clean_text (get_value ws rr c1)
      if !(markerColVal = "") && isBlockMarker markerColVal then ([], rr)
      else
        let rv := row_region_values ws rr tc1 tc2
        if rv.any (fun v => !(v = "") && startsW v "TABLE-") then ([], rr)
        else
          let stop :=
            if is_row_blank rv && rr + 1 ≤ rEnd then
              let nextMarker := clean_text (get_value ws (rr + 1) c1)
              let nextRv := row_region_values ws (rr + 1) tc1 tc2
              is_row_blank nextRv || (!(nextMarker = "") && isBlockMarker nextMarker)
            else false
          if stop then ([], rr)
          else
            let rest := collectTableRowsAux ws c1 tc1 tc2 rEnd fuel (rr + 1)
            (tableRowCells ws tc1 tc2 rr :: rest.1, rest.2)

/-- Model of `collect_table` starting at the marker row `r0`: the table
section and the next unprocessed row (a trailing `TABLE-` end-marker row is
consumed, lines 352–357). -/
def collect_table (ws : Worksheet) (c1 c2 rEnd r0 : Nat) : Section × Nat :=
  let sp := tableSpan ws c1 c2 r0
  let res := collectTableRowsAux ws c1 sp.1 sp.2 rEnd (rEnd + 2) (r0 + 1)
  let rr := res.2
  let rr2 :=
    if rr ≤ rEnd then
      let rvCheck := row_region_values ws rr sp.1 sp.2
      if rvCheck.any (fun v => !(v = "") && startsW v "TABLE-") then rr + 1 else rr
    else rr
  (⟨"", [], [], some ⟨res.1⟩⟩, rr2)

/-! ## SectionBlockParser (`parse_section_block`, lines 177–583) -/

/-- The forward scan bounding a `RULES-` block's extent (lines 488–512):
starting from the marker row, repeated rows with the same `RULES-` title and
plain content rows extend the extent; a blank row, any other marker, or a
differently-titled `RULES-` row ends it.  Returns the last row of the
extent. -/
def rulesExtentAux (ws : Worksheet) (c1 c2 rEnd : Nat) (title : String) :
    Nat → Nat → Nat
  | 0, re => re
  | fuel + 1, re =>
    if re + 1 > rEnd then re
    else
      let nextRv := row_region_values ws (re + 1) c1 c2
      let nextFirst := nextRv.headD ""
      if is_row_blank nextRv then re
      else if isBlockMarker nextFirst || startsW nextFirst "TABLE-" then re
      else if startsW nextFirst "RULES-" then
        if markerSuffix "RULES-" nextFirst = title then
          rulesExtentAux ws c1 c2 rEnd title fuel (re + 1)
        else re
      else rulesExtentAux ws c1 c2 rEnd title fuel (re + 1)

/-- The fallback-paragraph alignment update (lines 558–563): unlike the
rules collector, an explicit `left` does **not** overwrite. -/
def alignStepFb (a : String) (ci : CellInfo) : String :=
  match ci.alignment with
  | some al =>
    if al = "center" then "center"
    else if al = "right" then "right"
    else a
  | none => a

/-- Run building of the fallback branch (lines 540–565). -/
def buildRunsFb : List CellInfo → List String → String → String × List Run
  | [], _, a => (a, [])
  | ci :: rest, seenRow, a =>
    let val := clean_text ci.value
    if val = "" || seenRow.contains val then buildRunsFb rest seenRow a
    else
      let res := buildRunsFb rest (val :: seenRow) (alignStepFb a ci)
      (res.1, ⟨val, ci.bold, ci.italic, ci.color⟩ :: res.2)

/-- The fallback paragraph of one unrecognized row (lines 528–578). -/
def fallbackParagraph (ws : Worksheet) (c1 c2 r : Nat) : Paragraph :=
  let br := buildRunsFb ((rowCellsInfo ws c1 c2 r).drop 1) [] "left"
  if br.2.isEmpty then blankParagraph else ⟨br.1, br.2⟩

/-- The scanning loop of `parse_section_block` (lines 470–580): skip blank
rows; dispatch rows containing a `TABLE-` token in a content column to the
table collector, `RULES-` rows (bounded by their extent) to the rules
collector, `RANK-`/`RINK-` rows to the reward collector; accumulate anything
else as fallback paragraphs.  Returns (sections, fallback paragraphs). -/
def parseSectionBlockAux (ws : Worksheet) (c1 c2 rEnd : Nat) :
    Nat → Nat → List Section × List Paragraph
  | 0, _ => ([], [])
  | fuel + 1, r =>
    if r > rEnd then ([], [])
    else
      let rv := row_region_values ws r c1 c2
      if is_row_blank rv then parseSectionBlockAux ws c1 c2 rEnd fuel (r + 1)
      else
        let first := rv.headD ""
        if (rv.drop 1).any (fun v => !(v = "") && startsW v "TABLE-") then
          let tr := collect_table ws c1 c2 rEnd r
          let rest := parseSectionBlockAux ws c1 c2 rEnd fuel tr.2
          (tr.1 :: rest.1, rest.2)
        else if startsW first "RULES-" then
          let title := markerSuffix "RULES-" first
          let rulesEnd := rulesExtentAux ws c1 c2 rEnd title (rEnd + 2) r
          let cr := collect_rules_content ws c1 c2 r rulesEnd
          let rest := parseSectionBlockAux ws c1 c2 rEnd fuel cr.2
          (⟨title, cr.1, [], none⟩ :: rest.1, rest.2)
        else if startsW first "RANK-" || startsW first "RINK-" then
          let sub := if startsW first "RANK-" then markerSuffix "RANK-" first
                     else markerSuffix "RINK-" first
          let cw := collect_rewards ws c1 c2 r rEnd
          let rest := parseSectionBlockAux ws c1 c2 rEnd fuel cw.2
          (⟨sub, [], cw.1, none⟩ :: rest.1, rest.2)
        else
          let para := fallbackParagraph ws c1 c2 r
          let rest := parseSectionBlockAux ws c1 c2 rEnd fuel (r + 1)
          (rest.1, para :: rest.2)

/-- Model of `parse_section_block` over rows `[rStart, rEnd]`. -/
def parse_section_block (ws : Worksheet) (c1 c2 rStart rEnd : Nat) :
    List Section × List Paragraph :=
  parseSectionBlockAux ws c1 c2 rEnd (rEnd + 2) rStart

/-! ## SectionMerger / BlockClassifier / DocumentAssembler (lines 586–683) -/

/-- Extend the rewards of the section at index `i`. -/
def extendRewardsAt (l : List Section) (i : Nat) (items : List RewardItem) :
    List Section :=
  match l.get? i with
  | some s => l.set i ⟨s.title, s.paragraphs, s.rewards ++ items, s.table⟩
  | none => l

/-- The loop of `merge_reward_sections` (lines 586–604): reward sections
sharing a title are merged into the first occurrence (which keeps only
title and rewards); other sections pass through. -/
def mergeRewardAux : List Section → List Section → List (String × Nat) → List Section
  | [], merged, _ => merged
  | s :: rest, merged, tmap =>
    if !s.rewards.isEmpty then
      match tmap.lookup s.title with
      | some idx => mergeRewardAux rest (extendRewardsAt merged idx s.rewards) tmap
      | none =>
        mergeRewardAux rest (merged ++ [⟨s.title, [], s.rewards, none⟩])
          ((s.title, merged.length) :: tmap)
    else mergeRewardAux rest (merged ++ [s]) tmap

/-- Model of `merge_reward_sections`. -/
def merge_reward_sections (sections : List Section) : List Section :=
  mergeRewardAux sections [] []

/-- The reward keyword list of the block classifier (line 657). -/
def rewardKeywords : List String :=
  ["奖励", "reward", "榜", "排行", "排名", "leaderboard", "prize", "奖品"]

/-- Block classification (lines 652–661): `rewards` iff the sections hold at
least one reward item or the title-marker type contains a reward keyword. -/
def blockTypeOf (titleType : String) (secs : List Section) : String :=
  let totalRewards := (secs.map (fun s => s.rewards.length)).sum
  let hasKw := rewardKeywords.any (fun kw => pyIn kw (myToLower titleType))
  if decide (totalRewards > 0) || hasKw then "rewards" else "rules"

/-- Final title of a block (lines 663–667): the title text (or the type when
empty), with a residual `TITLE-` prefix stripped. -/
def finalTitleOf (t : TitleMarker) : String :=
  let ft := if !(t.text = "") then t.text else t.ttype
  if startsW ft "TITLE-" then pyStrip (strDrop ft 6) else ft

/-- A parsed block. -/
structure Block where
  blockTitle : String
  blockType : String
  sections : List Section
  deriving DecidableEq

/-- One block of the sheet loop (lines 640–673), over rows
`[rStart, rEndB]`. -/
def mkBlock (ws : Worksheet) (c1 c2 rStart rEndB : Nat) (t : TitleMarker) : Block :=
  let sb := parse_section_block ws c1 c2 rStart rEndB
  let mergedSecs :=
    if !sb.1.isEmpty then merge_reward_sections sb.1
    else [⟨(if !(t.text = "") then t.text else t.ttype), sb.2, [], none⟩]
  ⟨finalTitleOf t, blockTypeOf t.ttype mergedSecs, mergedSecs⟩

/-- The per-title loop of `parse_sheet` (lines 640–643): block `i` spans
`[title[i].row + 1, title[i+1].row - 1]`, the last block extending to the
sheet's last row. -/
def blocksAux (ws : Worksheet) (c1 c2 maxRow : Nat) : List TitleMarker → List Block
  | [] => []
  | t :: rest =>
    let rEndB := match rest.head? with
      | some t2 => t2.row - 1
      | none => maxRow
    mkBlock ws c1 c2 (t.row + 1) rEndB t :: blocksAux ws c1 c2 maxRow rest

/-- A parsed page: one region. -/
structure Page where
  region : String
  direction : String
  blocks : List Block
  deriving DecidableEq

/-- The parsed document. -/
structure Document where
  pages : List Page
  deriving DecidableEq

/-- One page of `parse_sheet` (lines 635–682). -/
def pageOf (ws : Worksheet) (rg : Region) : Page :=
  ⟨rg.code, if is_rtl_region rg.code then "rtl" else "ltr",
   blocksAux ws rg.colStart rg.colEnd ws.maxRow (scan_titles ws rg)⟩

/-- Model of `parse_sheet`. -/
def parse_sheet (ws : Worksheet) : Document :=
  ⟨(find_regions ws).map (pageOf ws)⟩

/-! ## `parse_file` (lines 698–740) -/

/-- A loaded workbook: sheet names in order plus the sheets themselves. -/
structure Workbook where
  sheetNames : List String
  sheetOf : String → Worksheet

/-- The successful result shape of `parse_file`. -/
structure ParseResult where
  sheets : List (String × Document)
  skipped : List String
  deriving DecidableEq

/-- The `ValueError` message of line 727. -/
def notFoundMsg (sheet : String) : String :=
  "Sheet " ++ String.mk [aposChar] ++ sheet ++ String.mk [aposChar] ++ " not found"

/-- Model of `parse_file`: with an explicit sheet name, parse just that sheet
(or record it as skipped when it has no region marker), failing when the
name is absent; otherwise parse every marker-bearing sheet. -/
def parse_file (wb : Workbook) (sheet : Option String) : Except String ParseResult :=
  match sheet with
  | some s =>
    if wb.sheetNames.contains s then
      let ws := wb.sheetOf s
      if has_region_marker ws then Except.ok ⟨[(s, parse_sheet ws)], []⟩
      else Except.ok ⟨[], [s]⟩
    else Except.error (notFoundMsg s)
  | none =>
    Except.ok (wb.sheetNames.foldl (fun acc name =>
      let ws := wb.sheetOf name
      if has_region_marker ws then ⟨acc.sheets ++ [(name, parse_sheet ws)], acc.skipped⟩
      else ⟨acc.sheets, acc.skipped ++ [name]⟩) ⟨[], []⟩)

/-! ## Concrete worksheets used as witnesses and counterexamples -/

/-- An absent cell. -/
def noCell : CellData := ⟨none, "", none, false, false, none⟩

/-- A plain text cell. -/
def txtCell (s : String) : CellData := ⟨some (CellVal.vStr s), "", none, false, false, none⟩

/-- A text cell with an explicit horizontal alignment. -/
def alCell (s a : String) : CellData := ⟨some (CellVal.vStr s), "", some a, false, false, none⟩

/-- Worksheet for C1: a `RULES-` block whose content (rows 1–2) is followed
by a single blank row (row 3) and a further non-blank, non-marker row
(row 4). -/
def exC1 : Worksheet :=
  ⟨4, 2,
   fun r c =>
     match r, c with
     | 1, 1 => txtCell "RULES-说明"
     | 1, 2 => txtCell "第一段"
     | 2, 2 => txtCell "第二段"
     | 4, 2 => txtCell "第三段"
     | _, _ => noCell,
   []⟩

/-- Worksheet for C2: a single `RULES-` row whose first content cell is
centered and whose second content cell is explicitly left-aligned. -/
def exC2 : Worksheet :=
  ⟨1, 3,
   fun r c =>
     match r, c with
     | 1, 1 => txtCell "RULES-说明"
     | 1, 2 => alCell "甲" "center"
     | 1, 3 => alCell "乙" "left"
     | _, _ => noCell,
   []⟩

/-- Worksheet for C3: the only first-row cell holds the formula-wrapped
marker `="REGION-X"`. -/
def exC3 : Worksheet :=
  ⟨1, 1,
   fun r c =>
     match r, c with
     | 1, 1 => txtCell "=\"REGION-X\""
     | _, _ => noCell,
   []⟩

/-- Worksheet for C4: a `RANK-` marker at row 4 followed by one reward row
whose three content cells are each merged over rows 5–6. -/
def exC4 : Worksheet :=
  ⟨6, 4,
   fun r c =>
     match r, c with
     | 4, 1 => txtCell "RANK-周榜"
     | 5, 2 => txtCell "奖甲"
     | 5, 3 => txtCell "img.png"
     | 5, 4 => txtCell "描述"
     | _, _ => noCell,
   [⟨5, 2, 6, 2⟩, ⟨5, 3, 6, 3⟩, ⟨5, 4, 6, 4⟩]⟩

/-- Worksheet for the table part of C4: an unmerged `TABLE-` marker at
(1,2) and a data cell at (2,2) merged over rows 2–3. -/
def exC4t : Worksheet :=
  ⟨3, 3,
   fun r c =>
     match r, c with
     | 1, 2 => txtCell "TABLE-赛程"
     | 2, 2 => txtCell "合并"
     | _, _ => noCell,
   [⟨2, 2, 3, 2⟩]⟩

/-- An empty 30×5 worksheet (C5 witness input). -/
def exWs30 : Worksheet := ⟨30, 5, fun _ _ => noCell, []⟩

/-- Worksheet for C6: a `RULES-` marker row followed by two rows carrying
identical cleaned text in all columns. -/
def exC6 : Worksheet :=
  ⟨3, 2,
   fun r c =>
     match r, c with
     | 1, 1 => txtCell "RULES-说明"
     | 2, 2 => txtCell "同样的文本"
     | 3, 2 => txtCell "同样的文本"
     | _, _ => noCell,
   []⟩

/-- Worksheet for C7, first scenario: a `TABLE-` marker at (2,3) merged
across columns 3–4, used with region start column 3. -/
def exC7a : Worksheet :=
  ⟨3, 6,
   fun r c =>
     match r, c with
     | 2, 3 => txtCell "TABLE-赛程"
     | 3, 4 => txtCell "数据"
     | _, _ => noCell,
   [⟨2, 3, 2, 4⟩]⟩

/-- Worksheet for C7, second scenario: the same merged `TABLE-` marker used
with region start column 2. -/
def exC7b : Worksheet :=
  ⟨3, 6,
   fun r c =>
     match r, c with
     | 2, 3 => txtCell "TABLE-赛程"
     | 3, 3 => txtCell "左"
     | 3, 4 => txtCell "右"
     | _, _ => noCell,
   [⟨2, 3, 2, 4⟩]⟩

/-- A one-sheet workbook whose only sheet is empty (C8 witness input). -/
def wbC8 : Workbook := ⟨["Sheet1"], fun _ => ⟨1, 1, fun _ _ => noCell, []⟩⟩

/-- The concrete percentage-formatted numeric cell of C9: value `0.5`,
number format `0%`. -/
def cdC9 : CellData := ⟨some (CellVal.vNum (mkRat 1 2)), "0%", none, false, false, none⟩

/-- Worksheet for C10: a single `REGION-USA` marker. -/
def exC10 : Worksheet :=
  ⟨2, 1,
   fun r c =>
     match r, c with
     | 1, 1 => txtCell "REGION-USA"
     | _, _ => noCell,
   []⟩

/-- The page that `parse_sheet` produces for `exC10`. -/
def pC10 : Page := ⟨"USA", "rtl", []⟩

/-- The title-marker list of the C5 scenario: two titles at rows 10 and 25. -/
def titlesC5 : List TitleMarker := [⟨"规则", "活动规则", 10⟩, ⟨"奖励", "榜单", 25⟩]

/-- The cells of a row that contribute runs: first occurrences of distinct
non-empty cleaned values, scanning left to right (the claim-side description
of which cells the run loop keeps). -/
def contributingCells : List CellInfo → List String → List CellInfo
  | [], _ => []
  | ci :: rest, seen =>
    let v := clean_text ci.value
    if v = "" || seen.contains v then contributingCells rest seen
    else ci :: contributingCells rest (v :: seen)

/-- The claim-side alignment rule of C2: the first non-default (`center` or
`right`) horizontal alignment found among the cells, else `left`. -/
def firstNonDefaultAlign (cells : List CellInfo) : String :=
  match cells.findSome? (fun ci =>
    match ci.alignment with
    | some al => if al = "center" || al = "right" then some al else none
    | none => none) with
  | some al => al
  | none => "left"

/-! ## Helper lemmas -/

/-- The exact rational product by 100, as computed inside `resolveValue`,
is the mathematical product. -/
theorem mkRat_mul100 (q : ℚ) : mkRat (q.num * 100) q.den = q * 100 := by
  rw [Rat.mkRat_eq_div]
  push_cast
  rw [mul_div_right_comm, Rat.num_div_den]

/-- A string containing `%` as a substring is truthy. -/
theorem strTruthy_of_pyIn (s : String) (h : pyIn "%" s = true) :
    strTruthy s = true := by
  obtain ⟨l⟩ := s
  cases l with
  | nil => exact absurd h (by decide)
  | cons c cs => rfl

/-- Every RTL token is a non-empty string. -/
theorem rtl_tokens_nonempty : RTL_REGIONS.all (fun t => !t.data.isEmpty) = true := by
  decide

/-- `is_rtl_region` is substring containment of an RTL token in the
upper-cased code. -/
theorem is_rtl_region_iff (code : String) :
    is_rtl_region code = true ↔
      ∃ t, t ∈ RTL_REGIONS ∧ pyIn t (myToUpper code) = true := by
  unfold is_rtl_region
  rw [Bool.and_eq_true, List.any_eq_true]
  constructor
  · rintro ⟨-, t, ht, hp⟩
    exact ⟨t, ht, hp⟩
  · rintro ⟨t, ht, hp⟩
    refine ⟨?_, t, ht, hp⟩
    have hne : (!t.data.isEmpty) = true := (List.all_eq_true.mp rtl_tokens_nonempty) t ht
    obtain ⟨l⟩ := code
    cases l with
    | nil =>
      exfalso
      have hup : myToUpper (String.mk []) = String.mk [] := rfl
      rw [hup] at hp
      have : t.data.isEmpty = true := hp
      simp only [Bool.not_eq_true'] at hne
      rw [hne] at this
      exact Bool.noConfusion this
    | cons c cs => rfl

/-! ## Claims C8, C9, C10, C3 -/

/-- Claim C8: `parse_file` called with an explicit sheet name absent from the
workbook fails with the NotFound error and produces no partial result (no
`ok` value of any shape is returned). -/
theorem claimC8 (wb : Workbook) (s : String)
    (h : wb.sheetNames.contains s = false) :
    parse_file wb (some s) = Except.error (notFoundMsg s) ∧
      ∀ res, parse_file wb (some s) ≠ Except.ok res := by
  have he : parse_file wb (some s) = Except.error (notFoundMsg s) := by
    unfold parse_file
    simp only [h, Bool.false_eq_true, if_false]
  refine ⟨he, fun res hok => ?_⟩
  rw [he] at hok
  exact Except.noConfusion hok

/-- Witness for C8 at a concrete workbook and missing sheet name. -/
theorem claimC8_witness :
    parse_file wbC8 (some "Sheet2") = Except.error (notFoundMsg "Sheet2") :=
  (claimC8 wbC8 "Sheet2" (by decide)).1

/-- Claim C9: a numeric cell whose number format contains `%` is rendered as
the text of the value times 100 in up-to-10-significant-digit general format
with `%` appended; in particular the value `0.5` renders as `"50%"` (second
conjunct: `formatG10 (0.5 * 100) = "50"`). -/
theorem claimC9 :
    (∀ (cd : CellData) (q : ℚ), cd.value = some (CellVal.vNum q) →
      pyIn "%" cd.numberFormat = true →
      resolveValue cd = some (CellVal.vStr (formatG10 (q * 100) ++ "%")))
    ∧ formatG10 (mkRat 1 2 * 100) = "50" := by
  constructor
  · intro cd q hv hp
    unfold resolveValue
    rw [hv]
    dsimp only
    rw [if_pos (by rw [strTruthy_of_pyIn cd.numberFormat hp, hp]; rfl)]
    rw [mkRat_mul100]
  · rw [show (mkRat 1 2 * 100 : ℚ) = 50 by norm_num [Rat.mkRat_eq_div]]
    decide

/-- Witness for C9: the concrete percentage cell with value `0.5` renders as
the text `"50%"`. -/
theorem claimC9_witness :
    resolveValue cdC9 = some (CellVal.vStr "50%") := by
  have h := claimC9.1 cdC9 (mkRat 1 2) rfl (by decide)
  rw [h, show formatG10 (mkRat 1 2 * 100) = "50" from claimC9.2]
  rfl

/-- Claim C10: a parsed page's direction is `"rtl"` exactly when the
upper-cased region code contains one of the fixed RTL tokens as a substring;
in particular the non-RTL code `"USA"` (which contains `"SA"`) is classified
RTL. -/
theorem claimC10 :
    (∀ (ws : Worksheet) (p : Page), p ∈ (parse_sheet ws).pages →
      (p.direction = "rtl" ↔ ∃ t, t ∈ RTL_REGIONS ∧ pyIn t (myToUpper p.region) = true))
    ∧ is_rtl_region "USA" = true := by
  constructor
  · intro ws p hp
    obtain ⟨rg, -, rfl⟩ := List.mem_map.mp hp
    show (pageOf ws rg).direction = "rtl" ↔ _
    unfold pageOf
    by_cases h : is_rtl_region rg.code = true
    · simp only [h, if_true]
      simpa using is_rtl_region_iff rg.code |>.mp h
    · have h' : is_rtl_region rg.code = false := by
        cases hb : is_rtl_region rg.code
        · rfl
        · exact absurd hb h
      simp only [h', Bool.false_eq_true, if_false]
      constructor
      · intro hcontra
        exact absurd hcontra (by decide)
      · intro hex
        exact absurd ((is_rtl_region_iff rg.code).mpr hex) h
  · decide

/-- Witness for C10: the page parsed from a `REGION-USA` sheet carries
direction `"rtl"`. -/
theorem claimC10_witness :
    pC10 ∈ (parse_sheet exC10).pages ∧ pC10.direction = "rtl" := by
  have hm : pC10 ∈ (parse_sheet exC10).pages := by decide
  exact ⟨hm, (claimC10.1 exC10 pC10 hm).mpr ⟨"SA", by decide, by decide⟩⟩

/-- Counterexample for C3: the first-row cell `="REGION-X"` cleans to
`REGION-X` (so the claimed iff demands a region marker), yet
`has_region_marker` — which does not apply the cleaning function — returns
false. -/
theorem claimC3_counterexample :
    ¬ (has_region_marker exC3 = true ↔
       ∃ i, i < exC3.maxCol ∧
         startsW (clean_text ((exC3.cells 1 (i + 1)).value)) "REGION-" = true) := by
  intro h
  have : has_region_marker exC3 = true := h.mpr ⟨0, by decide, by decide⟩
  exact absurd this (by decide)

/-- Claim C3 amended: `has_region_marker` is true iff the sheet has at least
one row and some first-row cell is truthy and its **raw** text — trimmed but
with no formula-wrapper stripping — starts with `REGION-`; a formula-wrapped
`="REGION-X"` cell therefore does not count. -/
theorem claimC3_amended (ws : Worksheet) :
    has_region_marker ws = true ↔
      (1 ≤ ws.maxRow ∧ ∃ i, i < ws.maxCol ∧
        (cellTruthy ((ws.cells 1 (i + 1)).value) &&
         startsW (pyStrip (pyStrOfOpt ((ws.cells 1 (i + 1)).value))) "REGION-") = true) := by
  unfold has_region_marker
  by_cases h : ws.maxRow < 1
  · rw [if_pos h]
    constructor
    · intro hc
      exact absurd hc (by decide)
    · rintro ⟨h1, -⟩
      omega
  · rw [if_neg h]
    rw [List.any_eq_true]
    constructor
    · rintro ⟨i, hi, hp⟩
      exact ⟨by omega, i, List.mem_range.mp hi, hp⟩
    · rintro ⟨-, i, hi, hp⟩
      exact ⟨i, List.mem_range.mpr hi, hp⟩

/-! ## Claims C2, C5, C6 -/

/-- Counterexample for C2: in a row whose first content cell is centered and
whose second is explicitly left-aligned, the emitted paragraph's alignment is
`"left"`, not the first non-default alignment `"center"` — later cells do
change it. -/
theorem claimC2_counterexample :
    firstNonDefaultAlign ((rowCellsInfo exC2 1 3 1).drop 1) = "center" ∧
    ((collect_rules_content exC2 1 3 1 1).1.headD blankParagraph).align = "left" ∧
    ((collect_rules_content exC2 1 3 1 1).1.headD blankParagraph).align ≠
      firstNonDefaultAlign ((rowCellsInfo exC2 1 3 1).drop 1) := by
  refine ⟨by decide, by decide, by decide⟩

/-- Claim C2 amended: the emitted paragraph's alignment is the **last**
explicit horizontal alignment (`center`, `right` or `left`) among the row's
run-contributing cells, scanning left to right — an explicit `left` on a
later cell resets an earlier `center`/`right` — defaulting to `left`. -/
theorem claimC2_amended (cells : List CellInfo) (seen : List String) (a : String) :
    (buildRuns cells seen a).1 = (contributingCells cells seen).foldl alignStep a := by
  induction cells generalizing seen a with
  | nil => rfl
  | cons ci rest ih =>
    simp only [buildRuns, contributingCells]
    split
    · exact ih seen a
    · rw [List.foldl_cons]
      exact ih (clean_text ci.value :: seen) (alignStep a ci)

/-- Claim C5: block `i` of a region with titles `t_1 < … < t_n` is parsed
over exactly `[t_i.row + 1, t_(i+1).row - 1]`, the last block over
`[t_n.row + 1, maxRow]`, and there are exactly as many blocks as titles. -/
theorem claimC5 :
    (∀ (ws : Worksheet) (c1 c2 maxRow : Nat) (titles : List TitleMarker)
      (i : Nat) (t : TitleMarker), titles.get? i = some t →
      (blocksAux ws c1 c2 maxRow titles).get? i =
        some (mkBlock ws c1 c2 (t.row + 1)
          (match titles.get? (i + 1) with
           | some t2 => t2.row - 1
           | none => maxRow) t))
    ∧ (∀ (ws : Worksheet) (c1 c2 maxRow : Nat) (titles : List TitleMarker),
      (blocksAux ws c1 c2 maxRow titles).length = titles.length) := by
  constructor
  · intro ws c1 c2 maxRow titles
    induction titles with
    | nil => intro i t h; exact absurd h (by simp)
    | cons t0 rest ih =>
      intro i t h
      cases i with
      | zero =>
        rw [List.get?_cons_zero] at h
        injection h with h
        subst h
        show some _ = some _
        congr 1
        cases rest <;> rfl
      | succ n =>
        rw [List.get?_cons_succ] at h
        exact ih n t h
  · intro ws c1 c2 maxRow titles
    induction titles with
    | nil => rfl
    | cons t0 rest ih => simpa [blocksAux] using ih

/-- Witness for C5: two titles at rows 10 and 25 over a 30-row sheet yield
exactly two blocks, the first parsed over rows 11–24 and the second over
rows 26–30. -/
theorem claimC5_witness :
    (blocksAux exWs30 2 5 30 titlesC5).get? 0 =
      some (mkBlock exWs30 2 5 11 24 ⟨"规则", "活动规则", 10⟩) ∧
    (blocksAux exWs30 2 5 30 titlesC5).get? 1 =
      some (mkBlock exWs30 2 5 26 30 ⟨"奖励", "榜单", 25⟩) ∧
    (blocksAux exWs30 2 5 30 titlesC5).length = 2 := by
  refine ⟨?_, ?_, claimC5.2 exWs30 2 5 30 titlesC5⟩
  · exact claimC5.1 exWs30 2 5 30 titlesC5 0 ⟨"规则", "活动规则", 10⟩ rfl
  · exact claimC5.1 exWs30 2 5 30 titlesC5 1 ⟨"奖励", "榜单", 25⟩ rfl

/-- Claim C6: a non-stop row whose composite run key already occurred in the
collection contributes no paragraph, but collection continues with the next
row (first conjunct); concretely, two consecutive rows under a `RULES-说明`
marker with identical cleaned text in all columns produce exactly one
paragraph (second conjunct — the leading blank paragraph comes from the
marker row itself, whose content columns are empty). -/
theorem claimC6 :
    (∀ (ws : Worksheet) (c1 c2 r0 rEnd fuel rr : Nat) (seen : List String),
      rr ≤ rEnd →
      rulesStop ws c1 c2 r0 rEnd rr = false →
      (rowRuns ws c1 c2 rr).2 ≠ [] →
      seen.contains (joinKey (rowRuns ws c1 c2 rr).2) = true →
      collectRulesAux ws c1 c2 r0 rEnd (fuel + 1) rr seen =
        collectRulesAux ws c1 c2 r0 rEnd fuel (rr + 1) seen)
    ∧ (collect_rules_content exC6 1 2 1 3).1 =
        [blankParagraph, ⟨"left", [⟨"同样的文本", false, false, none⟩]⟩] := by
  constructor
  · intro ws c1 c2 r0 rEnd fuel rr seen hle hstop hruns hseen
    have hne : (rowRuns ws c1 c2 rr).2.isEmpty = false := by
      cases h : (rowRuns ws c1 c2 rr).2
      · exact absurd h hruns
      · rfl
    simp only [collectRulesAux]
    rw [if_neg (by omega)]
    simp only [hstop, Bool.false_eq_true, if_false, hne, hseen, if_true]
  · decide

/-- Witness for C6: at row 3 of the concrete sheet (whose key equals row 2's)
the collector adds nothing and moves on to row 4. -/
theorem claimC6_witness :
    rulesStop exC6 1 2 1 3 3 = false ∧
    (["同样的文本"].contains (joinKey (rowRuns exC6 1 2 3).2)) = true ∧
    collectRulesAux exC6 1 2 1 3 1 3 ["同样的文本"] =
      collectRulesAux exC6 1 2 1 3 0 4 ["同样的文本"] := by
  refine ⟨by decide, by decide, ?_⟩
  exact claimC6.1 exC6 1 2 1 3 0 3 ["同样的文本"] (by omega) (by decide) (by decide)
    (by decide)

/-! ## Claim C1 -/

/-- Every value of a blank row is the empty string. -/
theorem blank_mem (vals : List String) (h : is_row_blank vals = true) :
    ∀ v ∈ vals, v = "" := by
  intro v hv
  have := List.all_eq_true.mp h v hv
  simpa using this

/-- A blank row's head (with default) is the empty string. -/
theorem blank_headD (vals : List String) (h : is_row_blank vals = true) :
    vals.headD "" = "" := by
  cases vals with
  | nil => rfl
  | cons v rest => exact blank_mem _ h v (List.mem_cons_self v rest)

/-- A blank row contains no `TABLE-` token in its content columns. -/
theorem blank_noTable (vals : List String) (h : is_row_blank vals = true) :
    (vals.drop 1).any (fun v => !(v = "") && startsW v "TABLE-") = false := by
  cases ha : (vals.drop 1).any (fun v => !(v = "") && startsW v "TABLE-") with
  | false => rfl
  | true =>
    exfalso
    obtain ⟨v, hv, hp⟩ := List.any_eq_true.mp ha
    rw [blank_mem vals h v (List.mem_of_mem_drop hv)] at hp
    exact absurd hp (by decide)

/-- A blank row whose successor (inside the range) is non-blank and carries
no `TITLE-`/`RINK-`/`RANK-` marker does not trigger the stop test of the
rules collector. -/
theorem rulesStop_blank_false (ws : Worksheet) (c1 c2 r0 rEnd rr : Nat)
    (hgt : r0 < rr)
    (hblank : is_row_blank (row_region_values ws rr c1 c2) = true)
    (hnext : rr + 1 ≤ rEnd)
    (hnb : is_row_blank (row_region_values ws (rr + 1) c1 c2) = false)
    (hnm : isBlockMarker ((row_region_values ws (rr + 1) c1 c2).headD "") = false) :
    rulesStop ws c1 c2 r0 rEnd rr = false := by
  unfold rulesStop
  rw [if_pos hgt]
  dsimp only
  rw [blank_headD _ hblank]
  simp only [show isBlockMarker "" = false from rfl, Bool.false_eq_true, if_false]
  rw [blank_noTable _ hblank]
  simp only [Bool.false_eq_true, if_false]
  rw [hblank]
  simp only [if_true]
  rw [if_pos hnext, hnb, hnm]
  rfl

/-- The run loop yields no runs on cells whose cleaned values are all empty. -/
theorem buildRuns_all_empty (cells : List CellInfo) (seen : List String) (a : String)
    (h : ∀ ci ∈ cells, clean_text ci.value = "") :
    buildRuns cells seen a = (a, []) := by
  induction cells generalizing seen a with
  | nil => rfl
  | cons ci rest ih =>
    have hv : clean_text ci.value = "" := h ci (List.mem_cons_self ci rest)
    simp only [buildRuns, hv]
    rw [if_pos (by simp)]
    exact ih seen a (fun cj hj => h cj (List.mem_cons_of_mem ci hj))

/-- A blank row yields the default alignment and no runs. -/
theorem rowRuns_blank (ws : Worksheet) (c1 c2 rr : Nat)
    (h : is_row_blank (row_region_values ws rr c1 c2) = true) :
    rowRuns ws c1 c2 rr = ("left", []) := by
  unfold rowRuns
  apply buildRuns_all_empty
  intro ci hci
  rw [show (rowCellsInfo ws c1 c2 rr).drop 1 =
        ((List.range (c2 + 1 - c1)).drop 1).map
          (fun i => get_cell_info ws rr (c1 + i)) from by
    rw [rowCellsInfo, List.map_drop]] at hci
  obtain ⟨i, hi, rfl⟩ := List.mem_map.mp hci
  have hmem : clean_text (get_value ws rr (c1 + i)) ∈ row_region_values ws rr c1 c2 :=
    List.mem_map.mpr ⟨i, List.mem_of_mem_drop hi, rfl⟩
  exact blank_mem _ h _ hmem

/-- The extent scan of a `RULES-` block never includes a blank row: every
row strictly between the marker row and the returned extent end is
non-blank. -/
theorem rulesExtent_no_blank (ws : Worksheet) (c1 c2 rEnd : Nat) (title : String) :
    ∀ (fuel r k : Nat), r < k → k ≤ rulesExtentAux ws c1 c2 rEnd title fuel r →
      is_row_blank (row_region_values ws k c1 c2) = false := by
  intro fuel
  induction fuel with
  | zero =>
    intro r k h1 h2
    exact absurd h2 (by simpa [rulesExtentAux] using by omega)
  | succ fuel ih =>
    intro r k h1 h2
    rw [rulesExtentAux] at h2
    by_cases hr : r + 1 > rEnd
    · rw [if_pos hr] at h2; omega
    rw [if_neg hr] at h2
    by_cases hb : is_row_blank (row_region_values ws (r + 1) c1 c2) = true
    · rw [if_pos hb] at h2; omega
    rw [if_neg hb] at h2
    have hbf : is_row_blank (row_region_values ws (r + 1) c1 c2) = false :=
      Bool.not_eq_true _ ▸ Bool.of_not_eq_true hb
    by_cases hm : (isBlockMarker ((row_region_values ws (r + 1) c1 c2).headD "") ||
        startsW ((row_region_values ws (r + 1) c1 c2).headD "") "TABLE-") = true
    · rw [if_pos hm] at h2; omega
    rw [if_neg hm] at h2
    by_cases hk : k = r + 1
    · subst hk; exact hbf
    have hk2 : r + 1 < k := by omega
    by_cases hru : startsW ((row_region_values ws (r + 1) c1 c2).headD "") "RULES-" = true
    · rw [if_pos hru] at h2
      by_cases ht : markerSuffix "RULES-" ((row_region_values ws (r + 1) c1 c2).headD "") = title
      · rw [if_pos ht] at h2
        exact ih (r + 1) k hk2 h2
      · rw [if_neg ht] at h2; omega
    · rw [if_neg hru] at h2
      exact ih (r + 1) k hk2 h2

/-- Counterexample for C1: in `exC1` the `RULES-` block's content rows 1–2
are followed by a blank row 3 and a non-blank, non-marker row 4.  The claim
demands that the blank row be preserved as a blank paragraph and that
collection continue through row 4; instead the block parser's extent
bounding stops the section before the blank row — its paragraphs hold only
rows 1–2, contain no blank paragraph, and row 4's text surfaces only as a
block-level fallback paragraph outside the section. -/
theorem claimC1_counterexample :
    is_row_blank (row_region_values exC1 3 1 2) = true ∧
    is_row_blank (row_region_values exC1 4 1 2) = false ∧
    isBlockMarker ((row_region_values exC1 4 1 2).headD "") = false ∧
    startsW ((row_region_values exC1 4 1 2).headD "") "TABLE-" = false ∧
    parse_section_block exC1 1 2 1 4 =
      ([⟨"说明", [⟨"left", [⟨"第一段", false, false, none⟩]⟩,
                   ⟨"left", [⟨"第二段", false, false, none⟩]⟩], [], none⟩],
       [⟨"left", [⟨"第三段", false, false, none⟩]⟩]) ∧
    blankParagraph ∉
      ((parse_section_block exC1 1 2 1 4).1.headD ⟨"", [], [], none⟩).paragraphs := by
  refine ⟨by decide, by decide, by decide, by decide, by decide, by decide⟩

/-- Claim C1 amended: the swallowing behaviour holds for the rules collector
over its own bounded range — a blank row followed (within the range) by a
non-blank, non-marker row does not stop collection and is preserved as a
blank paragraph (first conjunct) — but the block parser's `RULES-` extent
bounding stops at the first blank row, so every row of the range actually
handed to the collector beyond the marker row is non-blank (second
conjunct): in a section as produced by the block parser a blank row ends
the section instead of being preserved. -/
theorem claimC1_amended :
    (∀ (ws : Worksheet) (c1 c2 r0 rEnd fuel rr : Nat) (seen : List String),
      r0 < rr → rr ≤ rEnd →
      is_row_blank (row_region_values ws rr c1 c2) = true →
      rr + 1 ≤ rEnd →
      is_row_blank (row_region_values ws (rr + 1) c1 c2) = false →
      isBlockMarker ((row_region_values ws (rr + 1) c1 c2).headD "") = false →
      collectRulesAux ws c1 c2 r0 rEnd (fuel + 1) rr seen =
        (blankParagraph :: (collectRulesAux ws c1 c2 r0 rEnd fuel (rr + 1) seen).1,
         (collectRulesAux ws c1 c2 r0 rEnd fuel (rr + 1) seen).2))
    ∧ (∀ (ws : Worksheet) (c1 c2 rEnd : Nat) (title : String) (fuel r k : Nat),
      r < k → k ≤ rulesExtentAux ws c1 c2 rEnd title fuel r →
      is_row_blank (row_region_values ws k c1 c2) = false) := by
  constructor
  · intro ws c1 c2 r0 rEnd fuel rr seen hgt hle hblank hnext hnb hnm
    have hstop := rulesStop_blank_false ws c1 c2 r0 rEnd rr hgt hblank hnext hnb hnm
    simp only [collectRulesAux]
    rw [if_neg (by omega)]
    simp only [hstop, Bool.false_eq_true, if_false, rowRuns_blank ws c1 c2 rr hblank,
      List.isEmpty_nil, if_true]
  · intro ws c1 c2 rEnd title fuel r k h1 h2
    exact rulesExtent_no_blank ws c1 c2 rEnd title fuel r k h1 h2

/-- Witness for C1 amended: on the C1 sheet, a collector handed a range
extending past the blank row 3 swallows it as a preserved blank paragraph
(first conjunct), while row 2 — the last row inside the extent the block
parser actually computes — is non-blank (second conjunct). -/
theorem claimC1_witness :
    collectRulesAux exC1 1 2 1 4 3 3 ["第一段", "第二段"] =
      (blankParagraph :: (collectRulesAux exC1 1 2 1 4 2 4 ["第一段", "第二段"]).1,
       (collectRulesAux exC1 1 2 1 4 2 4 ["第一段", "第二段"]).2) ∧
    is_row_blank (row_region_values exC1 2 1 2) = false := by
  refine ⟨claimC1_amended.1 exC1 1 2 1 4 2 3 ["第一段", "第二段"] (by omega) (by omega)
    (by decide) (by omega) (by decide) (by decide), ?_⟩
  exact claimC1_amended.2 exC1 1 2 4 "说明" 6 1 2 (by omega) (by decide)

/-! ## Claims C4 and C7 -/

/-- The emitted table cell records the scanned row. -/
theorem mkTableCell_srcRow (ws : Worksheet) (rr ac rs cs : Nat) (val : String) :
    (mkTableCell ws rr ac rs cs val).srcRow = rr := rfl

/-- The emitted table cell records the scanned column. -/
theorem mkTableCell_srcCol (ws : Worksheet) (rr ac rs cs : Nat) (val : String) :
    (mkTableCell ws rr ac rs cs val).srcCol = ac := rfl

/-- Every cell emitted for one table row sits at the scanned row, within the
span's columns, and at the origin of its merge range when it has one. -/
theorem mem_tableRowCells (ws : Worksheet) (tc1 tc2 rr : Nat) (cell : TableCell)
    (h : cell ∈ tableRowCells ws tc1 tc2 rr) :
    cell.srcRow = rr ∧ tc1 ≤ cell.srcCol ∧ cell.srcCol ≤ tc2 ∧
      ∀ mr, mergeAt ws.merges cell.srcRow cell.srcCol = some mr →
        cell.srcRow = mr.minRow ∧ cell.srcCol = mr.minCol := by
  obtain ⟨colIdx, hmem, heq⟩ := List.mem_filterMap.mp h
  have hlt : colIdx < tc2 + 1 - tc1 := List.mem_range.mp hmem
  dsimp only at heq
  cases hm : mergeAt ws.merges rr (tc1 + colIdx) with
  | some mr =>
    rw [hm] at heq
    dsimp only at heq
    by_cases hc : rr = mr.minRow ∧ tc1 + colIdx = mr.minCol
    · rw [if_pos hc] at heq
      injection heq with heq
      subst heq
      simp only [mkTableCell_srcRow, mkTableCell_srcCol]
      refine ⟨trivial, by omega, by omega, ?_⟩
      intro mr' hm'
      rw [hm] at hm'
      injection hm' with hm'
      subst hm'
      exact hc
    · rw [if_neg hc] at heq
      exact Option.noConfusion heq
  | none =>
    rw [hm] at heq
    dsimp only at heq
    injection heq with heq
    subst heq
    simp only [mkTableCell_srcRow, mkTableCell_srcCol]
    refine ⟨trivial, by omega, by omega, ?_⟩
    intro mr' hm'
    rw [hm] at hm'
    exact Option.noConfusion hm'

/-- Every row emitted by the table data-row loop is the cell list of some
scanned row. -/
theorem mem_collectTableRows (ws : Worksheet) (c1 tc1 tc2 rEnd : Nat) :
    ∀ (fuel rr : Nat) (row : List TableCell),
      row ∈ (collectTableRowsAux ws c1 tc1 tc2 rEnd fuel rr).1 →
      ∃ k, row = tableRowCells ws tc1 tc2 k := by
  intro fuel
  induction fuel with
  | zero =>
    intro rr row hmem
    exact absurd hmem (List.not_mem_nil row)
  | succ fuel ih =>
    intro rr row hmem
    rw [collectTableRowsAux] at hmem
    by_cases h1 : rr > rEnd
    · rw [if_pos h1] at hmem
      exact absurd hmem (List.not_mem_nil row)
    rw [if_neg h1] at hmem
    by_cases h2 : (!(clean_text (get_value ws rr c1) = "") &&
        isBlockMarker (clean_text (get_value ws rr c1))) = true
    · rw [if_pos h2] at hmem
      exact absurd hmem (List.not_mem_nil row)
    rw [if_neg h2] at hmem
    by_cases h3 : ((row_region_values ws rr tc1 tc2).any
        (fun v => !(v = "") && startsW v "TABLE-")) = true
    · rw [if_pos h3] at hmem
      exact absurd hmem (List.not_mem_nil row)
    rw [if_neg h3] at hmem
    dsimp only at hmem
    by_cases h4 : (if (is_row_blank (row_region_values ws rr tc1 tc2) &&
        decide (rr + 1 ≤ rEnd)) = true then
        (is_row_blank (row_region_values ws (rr + 1) tc1 tc2) ||
          (!(clean_text (get_value ws (rr + 1) c1) = "") &&
           isBlockMarker (clean_text (get_value ws (rr + 1) c1)))) else false) = true
    · rw [if_pos h4] at hmem
      exact absurd hmem (List.not_mem_nil row)
    rw [if_neg h4] at hmem
    rcases List.mem_cons.mp hmem with hhead | htail
    · exact ⟨rr, hhead⟩
    · exact ih (rr + 1) row htail

/-- Claim C4 amended: the coordinates stored on table cells
(`sourceRow`/`sourceCol`) always denote the origin cell of their merge range
(first conjunct), but a reward item's `sourceRow` is the scanned row — which
for merge-duplicated rows is a covered coordinate, not the origin — and its
`imageColumn` is always the fixed column `c1 + 2` regardless of merges
(second conjunct). -/
theorem claimC4_amended :
    (∀ (ws : Worksheet) (c1 tc1 tc2 rEnd fuel rr : Nat)
      (row : List TableCell) (cell : TableCell) (mr : MergeRange),
      row ∈ (collectTableRowsAux ws c1 tc1 tc2 rEnd fuel rr).1 →
      cell ∈ row →
      mergeAt ws.merges cell.srcRow cell.srcCol = some mr →
      cell.srcRow = mr.minRow ∧ cell.srcCol = mr.minCol)
    ∧ (∀ (ws : Worksheet) (c1 c2 r0 rEnd fuel rr : Nat) (item : RewardItem),
      item ∈ (collectRewardsAux ws c1 c2 r0 rEnd fuel rr).1 →
      item.imgCol = c1 + 2) := by
  constructor
  · intro ws c1 tc1 tc2 rEnd fuel rr row cell mr hrow hcell hm
    obtain ⟨k, rfl⟩ := mem_collectTableRows ws c1 tc1 tc2 rEnd fuel rr row hrow
    exact (mem_tableRowCells ws tc1 tc2 k cell hcell).2.2.2 mr hm
  · intro ws c1 c2 r0 rEnd
    intro fuel
    induction fuel with
    | zero =>
      intro rr item hmem
      exact absurd hmem (List.not_mem_nil item)
    | succ fuel ih =>
      intro rr item hmem
      rw [collectRewardsAux] at hmem
      by_cases h1 : rr > rEnd
      · rw [if_pos h1] at hmem
        exact absurd hmem (List.not_mem_nil item)
      rw [if_neg h1] at hmem
      dsimp only at hmem
      by_cases h2 : (isAnyMarker5 ((row_region_values ws rr c1 c2).headD "") &&
          !(rr = r0 : Bool)) = true
      · rw [if_pos h2] at hmem
        exact absurd hmem (List.not_mem_nil item)
      rw [if_neg h2] at hmem
      by_cases h3 : (is_row_blank (row_region_values ws rr c1 c2) &&
          !(rr = r0 : Bool)) = true
      · rw [if_pos h3] at hmem
        exact absurd hmem (List.not_mem_nil item)
      rw [if_neg h3] at hmem
      by_cases h4 : (!decide ((rewardNameImgDesc (row_region_values ws rr c1 c2)).1 = "") ||
          !decide ((rewardNameImgDesc (row_region_values ws rr c1 c2)).2.2 = "") ||
          !decide ((rewardNameImgDesc (row_region_values ws rr c1 c2)).2.1 = "")) = true
      · rw [if_pos h4] at hmem
        rcases List.mem_cons.mp hmem with hhead | htail
        · subst hhead; rfl
        · exact ih (rr + 1) item htail
      · rw [if_neg h4] at hmem
        exact ih (rr + 1) item hmem

/-- Counterexample for C4: on the concrete sheet with a reward row merged
over rows 5–6, the collector emits an item whose stored `sourceRow` (6) and
`imageColumn` (3) name a coordinate lying inside a merge range with top row
5 — a covered cell, not the origin. -/
theorem claimC4_counterexample :
    ∃ item ∈ (collect_rewards exC4 1 4 4 6).1,
      mergeAt exC4.merges item.srcRow item.imgCol = some ⟨5, 3, 6, 3⟩ ∧
      item.srcRow ≠ 5 := by
  decide

/-- Witness for C4 amended: a concrete merged table cell carries the merge
origin (2,2), and a concrete collected reward item carries image column
`1 + 2`. -/
theorem claimC4_witness :
    ((mkTableCell exC4t 2 2 2 1 "合并").srcRow = (⟨2, 2, 3, 2⟩ : MergeRange).minRow ∧
     (mkTableCell exC4t 2 2 2 1 "合并").srcCol = (⟨2, 2, 3, 2⟩ : MergeRange).minCol) ∧
    (⟨"奖甲", "img.png", "描述", 5, 3, "img.png"⟩ : RewardItem).imgCol = 1 + 2 := by
  constructor
  · exact claimC4_amended.1 exC4t 1 2 3 3 5 2
      (tableRowCells exC4t 2 3 2)
      (mkTableCell exC4t 2 2 2 1 "合并") ⟨2, 2, 3, 2⟩
      (by decide) (by decide) (by decide)
  · exact claimC4_amended.2 exC4 1 4 4 6 4 4
      ⟨"奖甲", "img.png", "描述", 5, 3, "img.png"⟩ (by decide)

/-- Claim C7: the table's effective span is the marker cell's merge-range
columns — excluding the range's first column when it coincides with the
block's leading column — or the block width minus its leading (marker)
column when the cell is unmerged (first conjunct); and every emitted data
cell lies within the span's columns (second conjunct). -/
theorem claimC7 :
    (∀ (ws : Worksheet) (c1 c2 r0 colIdx : Nat),
      (row_region_values ws r0 c1 c2).findIdx? (fun v => startsW v "TABLE-") =
        some colIdx →
      (∀ mr, mergeAt ws.merges r0 (c1 + colIdx) = some mr →
        tableSpan ws c1 c2 r0 =
          (if mr.minCol = c1 then mr.minCol + 1 else mr.minCol, mr.maxCol)) ∧
      (mergeAt ws.merges r0 (c1 + colIdx) = none →
        tableSpan ws c1 c2 r0 = (c1 + 1, c2)))
    ∧ (∀ (ws : Worksheet) (c1 tc1 tc2 rEnd fuel rr : Nat)
      (row : List TableCell) (cell : TableCell),
      row ∈ (collectTableRowsAux ws c1 tc1 tc2 rEnd fuel rr).1 →
      cell ∈ row →
      tc1 ≤ cell.srcCol ∧ cell.srcCol ≤ tc2) := by
  constructor
  · intro ws c1 c2 r0 colIdx hfind
    constructor
    · intro mr hm
      unfold tableSpan
      dsimp only
      rw [hfind]
      dsimp only
      rw [hm]
    · intro hm
      unfold tableSpan
      dsimp only
      rw [hfind]
      dsimp only
      rw [hm]
  · intro ws c1 tc1 tc2 rEnd fuel rr row cell hrow hcell
    obtain ⟨k, rfl⟩ := mem_collectTableRows ws c1 tc1 tc2 rEnd fuel rr row hrow
    exact ⟨(mem_tableRowCells ws tc1 tc2 k cell hcell).2.1,
           (mem_tableRowCells ws tc1 tc2 k cell hcell).2.2.1⟩

/-- Witness for C7: the marker merged across columns 3–4 with region start 3
spans exactly column 4; with region start 2 it spans columns 3–4; and the
concrete data cell of the first table lies within its span. -/
theorem claimC7_witness :
    tableSpan exC7a 3 6 2 = (4, 4) ∧
    tableSpan exC7b 2 6 2 = (3, 4) ∧
    (4 ≤ (mkTableCell exC7a 3 4 1 1 "数据").srcCol ∧
     (mkTableCell exC7a 3 4 1 1 "数据").srcCol ≤ 4) := by
  refine ⟨?_, ?_, ?_⟩
  · have h := (claimC7.1 exC7a 3 6 2 0 (by decide)).1 ⟨2, 3, 2, 4⟩ (by decide)
    simpa using h
  · have h := (claimC7.1 exC7b 2 6 2 1 (by decide)).1 ⟨2, 3, 2, 4⟩ (by decide)
    simpa using h
  · exact claimC7.2 exC7a 3 4 4 3 5 3 (tableRowCells exC7a 4 4 3)
      (mkTableCell exC7a 3 4 1 1 "数据") (by decide) (by decide)

end ActivityRules

/-!
Behavioural spot-checks of the embedding, evaluated by the kernel.
-/
section SanityChecks
open ActivityRules
example : formatG10 (50 : ℚ) = "50" := by decide
example : formatG10 (125 : ℚ) = "125" := by decide
example : formatG10 (mkRat 1 8) = "0.125" := by decide
example : formatG10 (mkRat 1 3) = "0.3333333333" := by decide
example : formatG10 (mkRat (-1) 2) = "-0.5" := by decide
example : formatG10 (0 : ℚ) = "0" := by decide
example : formatG10 ((10:ℚ) ^ 12) = "1e+12" := by decide
example : pyStrip "  ab c  " = "ab c" := by decide
example : pyIn "SA" (myToUpper "usa") = true := by decide
example : splitLast "RULES-说明" "RULES-" = "说明" := by decide
example : markerSuffix "RULES-" "RULES- 说明 " = "说明" := by decide
example : clean_text (some (CellVal.vStr " =\"REGION-X\" ")) = "REGION-X" := by decide
example : clean_text (some (CellVal.vStr "a\r\nb\rc")) = "a\nb\nc" := by decide
example : clean_text none = "" := by decide
example :
    resolveValue ⟨some (CellVal.vNum (mkRat 1 2)), "0%", none, false, false, none⟩ =
      some (CellVal.vStr "50%") := by decide
example : resolveColor (some "FF00AA11") = some "#00AA11" := by decide
example :
    parse_section_block exC1 1 2 1 4 =
      ([⟨"说明",
         [⟨"left", [⟨"第一段", false, false, none⟩]⟩,
          ⟨"left", [⟨"第二段", false, false, none⟩]⟩], [], none⟩],
       [⟨"left", [⟨"第三段", false, false, none⟩]⟩]) := by decide
example : parse_sheet exC10 = ⟨[pC10]⟩ := by decide
example : has_region_marker exC3 = false := by decide
example :
    (collect_rewards exC4 1 4 4 6).1 =
      [⟨"奖甲", "img.png", "描述", 5, 3, "img.png"⟩,
       ⟨"奖甲", "img.png", "描述", 6, 3, "img.png"⟩] := by decide
example : tableSpan exC7a 3 6 2 = (4, 4) := by decide
example : tableSpan exC7b 2 6 2 = (3, 4) := by decide
example :
    (collect_rules_content exC6 1 2 1 3).1 =
      [blankParagraph, ⟨"left", [⟨"同样的文本", false, false, none⟩]⟩] := by decide
example :
    (collect_rules_content exC2 1 3 1 1).1 =
      [⟨"left", [⟨"甲", false, false, none⟩, ⟨"乙", false, false, none⟩]⟩] := by decide
end SanityChecks
